import Mathlib

set_option autoImplicit false

/-!
Verification development for the zotero-cli source (src/bin/zotero-cli.ts).

The embedding covers:
* layered configuration resolution and validation (`Zotero.run`, lines 57-186);
* the paginated fetch loop (`Zotero.all`, lines 208-226);
* request construction for the verb wrappers (`Zotero.patch` lines 282-297,
  `Zotero.delete` lines 299-313);
* uri construction and the verbose request log of `Zotero.get` (lines 228-252);
* output redaction in `Zotero.show` (lines 319-321);
* the command-failure / output-flush tail of `Zotero.run` and `Zotero.print`
  (lines 177-206).

File-system existence checks, JSON parsing and uri-encoding are performed by
external collaborators in the source (`fs`, `JSON`, `encodeURI`) and are passed
in as explicit function arguments.
-/

deriving instance DecidableEq for Except

/-- Raw values as they occur in the parsed TOML config document, the
environment, or the argparse result: strings, numbers, booleans, JSON
documents (a parsed JSON value is kept as its source text), and values
inherited from `Object.prototype` (the storeTrue lookup of src lines 148-156
traverses the prototype chain, so e.g. `toString` yields the inherited
function; `rproto` records the property name).  Config and environment
sources only ever produce the first four. -/
inductive Raw where
  | rstr (s : String)
  | rint (n : Int)
  | rbool (b : Bool)
  | rjson (s : String)
  | rproto (name : String)
deriving DecidableEq

/-- JavaScript truthiness for the raw values that occur in the program:
`''`, `0`, `false` and `null`/`undefined` (the `none` case of `Option Raw`)
are falsy, everything else is truthy. -/
def truthy : Raw → Bool
  | .rstr s => s ≠ ""
  | .rint n => n ≠ 0
  | .rbool b => b
  | .rjson _ => true
  | .rproto _ => true

/-- Truthiness of a possibly-absent value (`null`/`undefined` are falsy). -/
def truthyO : Option Raw → Bool
  | none => false
  | some v => truthy v

/-- JavaScript `String(v)` for the raw values of the model. A parsed JSON
document stringifies to `[object Object]`; an inherited `Object.prototype`
member stringifies to its JS source text, abstracted to a fixed placeholder
here since no config/env source can produce one and no claim inspects it. -/
def jsStr : Raw → String
  | .rstr s => s
  | .rint n => toString n
  | .rbool b => if b then "true" else "false"
  | .rjson _ => "[object Object]"
  | .rproto _ => "[inherited Object.prototype member]"

/-- The whitespace characters skipped by JavaScript `parseInt` before reading
the number. -/
def isJsWhitespace (c : Char) : Bool :=
  c = ' ' || c = '\t' || c = '\n' || c = '\r' || c = '\x0b' || c = '\x0c'

/-- Value of a decimal digit string read most-significant first. -/
def decVal (cs : List Char) : Nat :=
  cs.foldl (fun a c => a * 10 + (c.toNat - 48)) 0

/-- Hexadecimal digits accepted by `parseInt` with radix 16. -/
def isHexDigitJs (c : Char) : Bool :=
  c.isDigit || ('a' ≤ c && c ≤ 'f') || ('A' ≤ c && c ≤ 'F')

/-- Value of a single hexadecimal digit. -/
def hexDigitVal (c : Char) : Nat :=
  if c.isDigit then c.toNat - 48
  else if 'a' ≤ c && c ≤ 'f' then c.toNat - 87
  else c.toNat - 55

/-- Value of a hexadecimal digit string read most-significant first. -/
def hexVal (cs : List Char) : Nat :=
  cs.foldl (fun a c => a * 16 + hexDigitVal c) 0

/-- ECMAScript `parseInt` with an undefined radix switches to radix 16 when
the (sign-stripped) input starts with `0x` or `0X`. -/
def hexGuard : List Char → Bool
  | c0 :: c1 :: _ => c0 = '0' && (c1 = 'x' || c1 = 'X')
  | _ => false

/-- The unsigned part of ECMAScript `parseInt(v)`: after `0x`/`0X` read the
longest hexadecimal digit run, otherwise the longest decimal digit run; an
empty run is `NaN`, modelled as `none`.  Trailing characters are ignored. -/
def jsParseIntCore (cs : List Char) : Option Nat :=
  if hexGuard cs then
    if ((cs.drop 2).takeWhile isHexDigitJs) = [] then none
    else some (hexVal ((cs.drop 2).takeWhile isHexDigitJs))
  else
    if (cs.takeWhile Char.isDigit) = [] then none
    else some (decVal (cs.takeWhile Char.isDigit))

/-- ECMAScript `parseInt` on a character list: skip leading whitespace, read
an optional sign, then the unsigned core; `NaN` is modelled as `none`. -/
def jsParseIntL (cs : List Char) : Option Int :=
  match cs.dropWhile isJsWhitespace with
  | [] => none
  | c :: t =>
    if c = '-' then (jsParseIntCore t).map (fun n => -(n : Int))
    else if c = '+' then (jsParseIntCore t).map (fun n => (n : Int))
    else (jsParseIntCore (c :: t)).map (fun n => (n : Int))

/-- ECMAScript `parseInt(s)` (radix argument omitted, as everywhere in the
source). -/
def jsParseInt (s : String) : Option Int :=
  jsParseIntL s.toList

/-- `parseInt(value)` applied to a raw config/env value: a number parses to
itself, `String(true)`, `String(false)` and `[object Object]` are `NaN`. -/
def jsParseIntRaw : Raw → Option Int
  | .rstr s => jsParseInt s
  | .rint n => some n
  | .rbool _ => none
  | .rjson _ => none
  | .rproto _ => none

/-- `JSON.stringify` of a plain string value, as used in error messages of the
source (`arg.integer`, line 26). -/
def jsonQuote (s : String) : String := "\"" ++ s ++ "\""

/-- The `integer` coercion of the `arg` helper object (src lines 25-28):
`parseInt` with a thrown error on `NaN`. -/
def argInteger (v : String) : Except String Int :=
  match jsParseInt v with
  | none => .error (jsonQuote v ++ " is not an integer")
  | some n => .ok n

/-- The argparse `type` field of an option descriptor (`arg.integer`,
`arg.path`, `arg.file`, `arg.json` in the source). -/
inductive ArgType where
  | integer
  | pathT
  | fileT
  | jsonT
deriving DecidableEq

/-- An argparse option descriptor as registered in `Zotero.run` and the
command methods: destination name, optional `type`, optional `choices`,
whether `action: storeTrue` was used, and whether `required: true` was set. -/
structure OptionDesc where
  dest : String
  type : Option ArgType
  choices : Option (List String)
  storeTrue : Bool
  required : Bool
deriving DecidableEq

/-- The external collaborators of configuration resolution: the two sections
of the parsed TOML config document (`this.config[this.args.command]` and the
top-level keys), the process environment, the file-system checks used by the
`path`/`file` coercions, JSON parseability, and the user id returned by the
`/keys/<api-key>` endpoint (used by the `user_id === 0` lookup, line 172). -/
structure Ctx where
  cmdSec : String → Option Raw
  globSec : String → Option Raw
  env : String → Option String
  fsExists : String → Bool
  fsIsFile : String → Bool
  jsonOk : String → Bool
  keyUserId : Int

/-- The mutable `this.args` object: a map from destination names to raw
values, `none` standing for JavaScript `null`/`undefined`. -/
abbrev Args := String → Option Raw

/-- Assignment `this.args[dest] = v` (src line 164). -/
def setArg (args : Args) (d : String) (v : Raw) : Args :=
  fun x => if x = d then some v else args x

/-- The external option name used for config-file lookups:
`option.dest.replace(/_/g, '-')` (src lines 110, 111, 121, 122). -/
def extName (d : String) : String :=
  String.mk (d.toList.map (fun c => if c = '_' then '-' else c))

/-- JavaScript `.toUpperCase()` on an option destination name. -/
def upperName (d : String) : String :=
  String.mk (d.toList.map Char.toUpper)

/-- The CLI-specific environment variable name
`ZOTERO_CLI_${option.dest.toUpperCase()}` (src line 116). -/
def envNameCli (d : String) : String := "ZOTERO_CLI_" ++ upperName d

/-- The API-specific environment variable name
`ZOTERO_${option.dest.toUpperCase()}` (src line 116). -/
def envNameApi (d : String) : String := "ZOTERO_" ++ upperName d

/-- JavaScript `a || b` on environment strings: an empty string is falsy and
falls through to the alternative. -/
def envOr (a b : Option String) : Option String :=
  match a with
  | some s => if s = "" then b else some s
  | none => b

/-- Sequential defaulting `if (typeof value === 'undefined') value = b`:
keep `a` when defined, else take `b`. -/
def orElseJs (a b : Option Raw) : Option Raw :=
  match a with
  | some x => some x
  | none => b

/-- The per-option source lookup of `Zotero.run` (src lines 106-125): when
`this.args.config` is set, first the command-scoped section and then the
global section of the config document (lines 108-112); next the two
environment variables combined with `||` (lines 114-117); last the
command-scoped and then the global section again (lines 119-123). -/
def lookupRaw (configGiven : Bool) (cmd glob : Option Raw) (e1 e2 : Option String) :
    Option Raw :=
  orElseJs
    (orElseJs (if configGiven then orElseJs cmd glob else none)
      ((envOr e1 e2).map Raw.rstr))
    (orElseJs cmd glob)

/-- The property names every JavaScript object literal inherits from
`Object.prototype` (ECMA-262 19.1.3 plus the Annex B accessors), all visible
to a bracket lookup via the prototype chain. -/
def protoProps : List String :=
  ["constructor", "hasOwnProperty", "isPrototypeOf", "propertyIsEnumerable",
   "toLocaleString", "toString", "valueOf", "__defineGetter__",
   "__defineSetter__", "__lookupGetter__", "__lookupSetter__", "__proto__"]

/-- Result of the JavaScript bracket lookup `{...}[value]` on the storeTrue
object literal: one of its six own boolean values, a defined non-boolean
member inherited from `Object.prototype`, or `undefined`. -/
inductive FlagLookup where
  | bval (b : Bool)
  | inheritedMember
  | absent
deriving DecidableEq

/-- The `storeTrue` string lookup of src lines 148-156: the object literal
owns exactly the keys `true`, `yes`, `on`, `false`, `no`, `off`, but the
bracket lookup also finds the members inherited from `Object.prototype`
(e.g. `toString`), which are defined and therefore pass the
`typeof _value === 'undefined'` test of line 157. -/
def flagMap (s : String) : FlagLookup :=
  if s = "true" then .bval true
  else if s = "yes" then .bval true
  else if s = "on" then .bval true
  else if s = "false" then .bval false
  else if s = "no" then .bval false
  else if s = "off" then .bval false
  else if protoProps.contains s then .inheritedMember
  else .absent

/-- Is the raw value a string (`typeof value === 'string'`)? -/
def isStrRaw : Raw → Bool
  | .rstr _ => true
  | _ => false

/-- The choices membership test `option.choices.includes(value)` (src line
145): strict equality against the string choices. -/
def choiceMem (cs : List String) : Raw → Bool
  | .rstr s => cs.contains s
  | _ => false

/-- The coercion chain of `Zotero.run` applied to a value found in config or
environment (src lines 127-162), in source order: `arg.integer`, `arg.path`,
`arg.file`, `arg.json` (strings only), `choices`, `storeTrue` (strings only),
and the string fall-through.  Errors carry the `this.parser.error` message of
the source. -/
def coerce (ctx : Ctx) (opt : OptionDesc) (v : Raw) : Except String Raw :=
  if opt.type = some ArgType.integer then
    match jsParseIntRaw v with
    | none => .error (opt.dest ++ " must be numeric, not " ++ jsStr v)
    | some n => .ok (.rint n)
  else if opt.type = some ArgType.pathT then
    if ctx.fsExists (jsStr v) then .ok v
    else .error (opt.dest ++ ": " ++ jsStr v ++ " does not exist")
  else if opt.type = some ArgType.fileT then
    if ctx.fsExists (jsStr v) && ctx.fsIsFile (jsStr v) then .ok v
    else .error (opt.dest ++ ": " ++ jsStr v ++ " is not a file")
  else if opt.type = some ArgType.jsonT ∧ isStrRaw v = true then
    match v with
    | .rstr s =>
      if ctx.jsonOk s then .ok (.rjson s)
      else .error (opt.dest ++ ": " ++ jsonQuote s ++ " is not valid JSON")
    | w => .ok w
  else if opt.choices.isSome then
    if choiceMem (opt.choices.getD []) v then .ok v
    else .error (opt.dest ++ " must be one of " ++
      String.intercalate "," (opt.choices.getD []))
  else if opt.storeTrue ∧ isStrRaw v = true then
    match v with
    | .rstr s =>
      match flagMap s with
      | .bval b => .ok (.rbool b)
      | .inheritedMember => .ok (.rproto s)
      | .absent => .error ("%\x7boption.dest\x7d must be boolean, not " ++ s)
    | w => .ok w
  else .ok v

/-- Resolution of a single option of the active command (the body of the
`for (const option of options)` loop, src lines 100-165): `help` and `config`
are skipped; an explicit (non-`null`) argparse value wins untouched; otherwise
the layered source lookup runs and a found raw value is coerced. `ok none`
means the option stays unset. -/
def resolveOption (ctx : Ctx) (configGiven : Bool) (opt : OptionDesc)
    (explicit : Option Raw) : Except String (Option Raw) :=
  if opt.dest = "help" ∨ opt.dest = "config" then .ok explicit
  else
    match explicit with
    | some v => .ok (some v)
    | none =>
      match lookupRaw configGiven (ctx.cmdSec (extName opt.dest))
          (ctx.globSec (extName opt.dest)) (ctx.env (envNameCli opt.dest))
          (ctx.env (envNameApi opt.dest)) with
      | none => .ok none
      | some raw => (coerce ctx opt raw).map some

/-- The whole option loop of `Zotero.run` (src lines 100-165), folding the
per-option resolution over the active command's descriptors. -/
def resolveAll (ctx : Ctx) (configGiven : Bool) :
    List OptionDesc → Args → Except String Args
  | [], args => .ok args
  | o :: rest, args =>
    match resolveOption ctx configGiven o (args o.dest) with
    | .error e => .error e
    | .ok none => resolveAll ctx configGiven rest args
    | .ok (some v) => resolveAll ctx configGiven rest (setArg args o.dest v)

/-- The argparse required-option check performed by `parseArgs` (src line 80):
the first required option missing from the command line is reported. -/
def requiredCheck : List OptionDesc → Args → Option String
  | [], _ => none
  | o :: rest, args =>
    if o.required && (args o.dest).isNone then some o.dest
    else requiredCheck rest args

/-- The scope preprocessing of src lines 86-96: when an explicit `--user-id`
or `--group-id` is truthy, both keys are deleted from the global config table
and replaced by the explicit values, deleting falsy ones again. -/
def preprocScope (ctx : Ctx) (args : Args) : Ctx :=
  if truthyO (args "user_id") || truthyO (args "group_id") then
    { ctx with globSec := fun d =>
        if d = "user-id" then
          (if truthyO (args "user_id") then args "user_id" else none)
        else if d = "group-id" then
          (if truthyO (args "group_id") then args "group_id" else none)
        else ctx.globSec d }
  else ctx

/-- The failures of configuration resolution, all reported through
`this.parser.error` in the source: a missing required option (argparse),
a coercion failure (lines 128-157), a missing API key (line 167), and the
user/group scope conflict (lines 170-171). -/
inductive RunErr where
  | missingRequired (dest : String)
  | badValue (msg : String)
  | noApiKey
  | scopeConflict
deriving DecidableEq

/-- Configuration resolution and validation of `Zotero.run` up to the command
dispatch (src lines 57-175): the argparse required check, the scope
preprocessing of lines 86-96, the option loop, the API-key check of line 167,
the exactly-one-scope checks of lines 170-171, the `user_id === 0` self lookup
of line 172 and the `indent` default of line 175.  The command itself runs
only after an `ok` result. -/
def runResolve (ctx : Ctx) (opts : List OptionDesc) (args : Args) :
    Except RunErr Args :=
  match requiredCheck opts args with
  | some d => .error (.missingRequired d)
  | none =>
    match resolveAll (preprocScope ctx args) (truthyO (args "config")) opts args with
    | .error m => .error (.badValue m)
    | .ok a =>
      if truthyO (a "api_key") = false then .error .noApiKey
      else if (a "user_id").isNone && (a "group_id").isNone then
        .error .scopeConflict
      else if !(a "user_id").isNone && !(a "group_id").isNone then
        .error .scopeConflict
      else
        let a1 := if a "user_id" = some (.rint 0) then
            setArg a "user_id" (.rint ctx.keyUserId) else a
        let a2 := if (a1 "indent").isNone then setArg a1 "indent" (.rint 2) else a1
        .ok a2

/-- First defined source in a priority list; used to state the effective
precedence order of `lookupRaw`. -/
def firstDefined : List (Option Raw) → Option Raw
  | [] => none
  | a :: rest =>
    match a with
    | some x => some x
    | none => firstDefined rest

/-! ### Pagination (`Zotero.all`, src lines 208-226) -/

/-- One HTTP response of the remote API as seen by `Zotero.all`: the decoded
body (an array of records), the parsed `next`-relation uris of the `link`
header (`none` when the header is absent), and the numeric `backoff` header
when present. -/
structure Page (α : Type) where
  body : List α
  link : Option (List String)
  backoff : Option Nat
deriving DecidableEq

/-- The loop guard `link && link.length && link[0].uri` (src lines 212-213,
223): a `next` relation exists and its first uri is truthy. -/
def hasNext {α : Type} (p : Page α) : Bool :=
  match p.link with
  | some (u :: _) => u ≠ ""
  | _ => false

/-- The uri `link[0].uri` requested for the next page (src line 217). -/
def nextUri {α : Type} (p : Page α) : String :=
  match p.link with
  | some (u :: _) => u
  | _ => ""

/-- Observable events of a pagination traversal: an HTTP request for a uri,
or a sleep of some milliseconds. -/
inductive Ev where
  | req (uri : String)
  | sleepMs (ms : Nat)
deriving DecidableEq

/-- The backoff handling of src line 214: when the response carries a
`backoff` header of `k` seconds, `sleep(parseInt(backoff) * 1000)` runs
before the next request; otherwise nothing happens. -/
def backoffEvents {α : Type} (p : Page α) : List Ev :=
  match p.backoff with
  | some k => [Ev.sleepMs (k * 1000)]
  | none => []

/-- The events one loop iteration emits before and with the fetch of the page
after `p`: the optional backoff sleep, then the request of `link[0].uri`. -/
def stepEvents {α : Type} (p : Page α) : List Ev :=
  backoffEvents p ++ [Ev.req (nextUri p)]

/-- The `while` loop of `Zotero.all` (src lines 213-224), with the remaining
server responses supplied as a queue: while the current chunk has a `next`
link, sleep on a backoff header, fetch the next chunk, and concatenate its
body; `none` models the server failing to produce a response for a requested
`next` uri. Returns the accumulated data of the pages after the first chunk
prepended with the chunk's body, and the emitted events. -/
def fetchLoop {α : Type} : Page α → List (Page α) → Option (List α × List Ev)
  | chunk, [] => if hasNext chunk then none else some (chunk.body, [])
  | chunk, c :: rest =>
    if hasNext chunk then
      match fetchLoop c rest with
      | none => none
      | some (d, evs) =>
        some (chunk.body ++ d, backoffEvents chunk ++ [Ev.req (nextUri chunk)] ++ evs)
    else some (chunk.body, [])

/-- `Zotero.all` (src lines 208-226) over the sequence of responses the server
will deliver: the initial `get` issues the first request (line 209), then the
loop runs.  Returns the concatenated data and the full event trace. -/
def zoteroAll {α : Type} (firstUri : String) :
    List (Page α) → Option (List α × List Ev)
  | [] => none
  | c :: rest =>
    match fetchLoop c rest with
    | none => none
    | some (d, evs) => some (d, Ev.req firstUri :: evs)

/-- A well-formed page sequence: every page except the last carries a `next`
link with a truthy uri, and the last does not. -/
def chainOK {α : Type} : List (Page α) → Bool
  | [] => false
  | [p] => !hasNext p
  | p :: q :: rest => hasNext p && chainOK (q :: rest)

/-- Number of HTTP requests in an event trace. -/
def countReqs : List Ev → Nat
  | [] => 0
  | Ev.req _ :: t => countReqs t + 1
  | Ev.sleepMs _ :: t => countReqs t

/-! ### Verb wrappers (`Zotero.patch` lines 282-297, `Zotero.delete` lines
299-313) and `Zotero.get` uri construction (lines 228-252) -/

/-- The fixed API base uri (`this.base`, src line 51). -/
def zBase : String := "https://api.zotero.org"

/-- The fixed protocol headers (`this.headers`, src lines 52-55). -/
def zHeadersBase : List (String × String) :=
  [("User-Agent", "Zotero-CLI"), ("Zotero-API-Version", "3")]

/-- The headers after `this.headers['Zotero-API-Key'] = this.args.api_key`
(src line 168). -/
def authHeaders (apiKey : String) : List (String × String) :=
  zHeadersBase ++ [("Zotero-API-Key", apiKey)]

/-- The optional optimistic-concurrency precondition header of `patch` and
`delete` (src lines 286, 303): present exactly when a version was supplied. -/
def versionHdr (version : Option Nat) : List (String × String) :=
  match version with
  | some v => [("If-Unmodified-Since-Version", toString v)]
  | none => []

/-- An outgoing HTTP request as handed to the `request` library. -/
structure Req where
  method : String
  uri : String
  headers : List (String × String)
  body : Option String
deriving DecidableEq

/-- The request built by `Zotero.patch` (src lines 282-297): method PATCH,
scoped uri, auth headers plus `Content-Type` plus the optional version
precondition, and the JSON body. -/
def patchReq (apiKey pre uri data : String) (version : Option Nat) : Req :=
  { method := "PATCH"
    uri := zBase ++ pre ++ uri
    headers := (authHeaders apiKey ++ [("Content-Type", "application/json")])
      ++ versionHdr version
    body := some data }

/-- The request built by `Zotero.delete` (src lines 299-313). -/
def deleteReq (apiKey pre uri : String) (version : Option Nat) : Req :=
  { method := "DELETE"
    uri := zBase ++ pre ++ uri
    headers := (authHeaders apiKey ++ [("Content-Type", "application/json")])
      ++ versionHdr version
    body := none }

/-- `Zotero.patch` as an operation against a server: it issues exactly the one
request it builds and returns the server's verdict unchanged; a rejection
(e.g. a 412 version conflict) propagates to the caller with no retry.  The
second component lists the requests issued. -/
def patchCall (server : Req → Except String String)
    (apiKey pre uri data : String) (version : Option Nat) :
    Except String String × List Req :=
  (server (patchReq apiKey pre uri data version),
   [patchReq apiKey pre uri data version])

/-- `Zotero.delete` as an operation against a server, as for `patchCall`. -/
def deleteCall (server : Req → Except String String)
    (apiKey pre uri : String) (version : Option Nat) :
    Except String String × List Req :=
  (server (deleteReq apiKey pre uri version), [deleteReq apiKey pre uri version])

/-- The user/group scope path of src line 234:
`this.args.user_id ? /users/id : /groups/id` (truthiness: a zero user id
selects the group branch; a missing group id renders as `null`). -/
def scopePre (uid gid : Option Int) : String :=
  if (match uid with | some u => u != 0 | none => false) then
    "/users/" ++ toString (uid.getD 0)
  else
    match gid with
    | some g => "/groups/" ++ toString g
    | none => "/groups/null"

/-- The query-string serialization of `Zotero.get` (src lines 236-240): per
parameter, each value of the (already array-wrapped) value list becomes a
`key=encodeURI(value)` pair, joined with `&`; `encodeURI` is an external
collaborator. -/
def serializeParams (enc : String → String)
    (params : List (String × List String)) : String :=
  String.intercalate "&"
    (params.map (fun kv =>
      String.intercalate "&" (kv.2.map (fun v => kv.1 ++ "=" ++ enc v))))

/-- The full uri built by `Zotero.get` (src lines 233-242): base, optional
scope path, path, optional `?params`. -/
def getFullUri (enc : String → String) (uid gid : Option Int) (withPre : Bool)
    (path : String) (params : List (String × List String)) : String :=
  zBase ++ (if withPre then scopePre uid gid else "")
    ++ path
    ++ (if serializeParams enc params = "" then ""
        else "?" ++ serializeParams enc params)

/-- The verbose request log of `Zotero.get` (src line 243):
`console.error('GET', uri)` exactly when `--verbose` is set.  The uri is
logged unredacted. -/
def verboseGetLog (verbose : Bool) (uri : String) : Option String :=
  if verbose then some ("GET " ++ uri) else none

/-! ### Redaction (`Zotero.show`, src lines 319-321) -/

/-- Global literal-substring replacement, the semantics of
`.replace(new RegExp(key, 'g'), '<API-KEY>')` for a key without regex
metacharacters: scan left to right, replace each occurrence, continue after
it. -/
def replaceAllL (k r : List Char) : List Char → List Char
  | [] => []
  | c :: t =>
    if h : k ≠ [] ∧ k.isPrefixOf (c :: t) = true then
      r ++ replaceAllL k r ((c :: t).drop k.length)
    else
      c :: replaceAllL k r t
termination_by s => s.length
decreasing_by
  · simp only [List.length_drop, List.length_cons]
    have hk : 0 < k.length := List.length_pos.mpr h.1
    omega
  · simp only [List.length_cons]
    omega

/-- Characters with a special meaning in a JavaScript regular expression
pattern (a conservative superset: braces and brackets are included even where
Annex B would tolerate them literally).  A string containing none of these
denotes a regex matching exactly that literal string. -/
def regexSpecial : List Char :=
  ['\\', '^', '$', '.', '|', '?', '*', '+', '(', ')', '[', ']', '\x7b', '\x7d']

/-- The redaction of `Zotero.show` (src line 320) applied to an
already-serialized payload: `.replace(new RegExp(key, 'g'), '<API-KEY>')`.
The source builds the pattern from the key *unescaped*, so this literal
global replacement is the source's semantics only for keys containing no
`regexSpecial` character (real Zotero API keys are alphanumeric); a key with
metacharacters makes the regex match other strings than the key, or makes
the `RegExp` constructor throw. -/
def redact (apiKey payload : String) : String :=
  String.mk (replaceAllL apiKey.toList "<API-KEY>".toList payload.toList)

/-- Does `s` contain `k` as a contiguous substring? -/
def containsSub (k : List Char) : List Char → Bool
  | [] => decide (k = [])
  | c :: t => k.isPrefixOf (c :: t) || containsSub k t

/-- String-level substring containment. -/
def containsStr (s k : String) : Bool :=
  containsSub k.toList s.toList

/-! ### Command failure and output flush (src lines 177-206) -/

/-- The line `Zotero.print` produces for a failed command (src lines 181,
193-204): the two arguments `'Command execution failed: '` and the error are
rendered and joined with a space; the error renders as `<Error: message>`
(the stack is abstracted away). -/
def printedErr (msg : String) : String :=
  "Command execution failed: " ++ " " ++ "<Error: " ++ msg ++ ">"

/-- The observable outcome of the tail of `Zotero.run`: exit code, console
lines, the file written by the `--out` flush, and the final in-memory output
buffer. -/
structure Outcome where
  exitCode : Nat
  stdout : List String
  fileWritten : Option (String × String)
  buffer : String
deriving DecidableEq

/-- The command execution tail of `Zotero.run` (src lines 177-186) together
with `Zotero.print` (lines 188-206): on failure the message is printed —
to the console via `console.log` when `--out` is unset, else appended to the
in-memory buffer — and `process.exit(1)` runs, so the `--out` flush of line
185 is never reached; on success the buffer is flushed to the `--out` file
and the process exits 0. -/
def finishRun (out : Option String) (buf : String)
    (cmdResult : Except String Unit) : Outcome :=
  match cmdResult with
  | .error msg =>
    match out with
    | none => { exitCode := 1, stdout := [printedErr msg], fileWritten := none, buffer := buf }
    | some _ => { exitCode := 1, stdout := [], fileWritten := none,
                  buffer := buf ++ printedErr msg ++ "\n" }
  | .ok _ =>
    match out with
    | none => { exitCode := 0, stdout := [], fileWritten := none, buffer := buf }
    | some f => { exitCode := 0, stdout := [], fileWritten := some (f, buf), buffer := buf }

/-! ### Spec-side definition for claim C10 -/

/-- A base-10 integer numeral over characters in the spec's sense (an optional
sign followed by one or more decimal digits and nothing else). -/
def specBase10NumeralL : List Char → Bool
  | [] => false
  | c :: t =>
    if c = '-' ∨ c = '+' then !t.isEmpty && t.all Char.isDigit
    else (c :: t).all Char.isDigit

/-- A base-10 integer numeral in the spec's sense; stated from the spec's
words to compare with the source's `parseInt` acceptance. -/
def specBase10Numeral (s : String) : Bool :=
  specBase10NumeralL s.toList

/-! ### Concrete instances used by counterexamples and witnesses -/

/-- A context with empty config sections and environment. -/
def ctx0 : Ctx :=
  { cmdSec := fun _ => none, globSec := fun _ => none, env := fun _ => none,
    fsExists := fun _ => false, fsIsFile := fun _ => false,
    jsonOk := fun _ => false, keyUserId := 0 }

/-- An argparse result with every destination `null`. -/
def args0 : Args := fun _ => none

/-- The plain string option `--out` of the source (src line 66). -/
def outOpt : OptionDesc :=
  { dest := "out", type := none, choices := none, storeTrue := false, required := false }

/-- A context for C1: `--config` given, command section empty, global section
defining `out = "G"`, environment defining `ZOTERO_CLI_OUT=E`. -/
def c1ctx : Ctx :=
  { ctx0 with
    globSec := fun d => if d = "out" then some (.rstr "G") else none,
    env := fun d => if d = "ZOTERO_CLI_OUT" then some "E" else none }

/-- A required option like `--key` of the `collection` command (src line 337). -/
def reqKeyOpt : OptionDesc :=
  { dest := "key", type := none, choices := none, storeTrue := false, required := true }

/-- A `storeTrue` flag option like `--verbose` (src line 67). -/
def verboseOpt : OptionDesc :=
  { dest := "verbose", type := none, choices := none, storeTrue := true, required := false }

/-- A context for C9: the environment sets `ZOTERO_CLI_VERBOSE=off`. -/
def c9ctx : Ctx :=
  { ctx0 with env := fun d => if d = "ZOTERO_CLI_VERBOSE" then some "off" else none }

/-- A context for C9: the environment sets `ZOTERO_CLI_VERBOSE=maybe`. -/
def c9ctx2 : Ctx :=
  { ctx0 with env := fun d => if d = "ZOTERO_CLI_VERBOSE" then some "maybe" else none }

/-- A context for the C9 counterexample: the environment sets
`ZOTERO_CLI_VERBOSE=toString`. -/
def c9ctx3 : Ctx :=
  { ctx0 with env := fun d => if d = "ZOTERO_CLI_VERBOSE" then some "toString" else none }

/-- An integer-typed option like `--user-id` (src line 63). -/
def intOpt : OptionDesc :=
  { dest := "user_id", type := some ArgType.integer, choices := none,
    storeTrue := false, required := false }

/-- Argparse result for the C4 witness: only the API key is set explicitly. -/
def c4args : Args := fun d => if d = "api_key" then some (.rstr "K") else none

/-- Page sequence for the C2 witness: two pages, no backoff headers. -/
def c2ps : List (Page Nat) :=
  [{ body := [1, 2], link := some ["https://api.zotero.org/p2"], backoff := none },
   { body := [3], link := none, backoff := none }]

/-- Page sequence for the C3 witness: first page demands a 5 second backoff. -/
def c3ps : List (Page Nat) :=
  [{ body := [1], link := some ["https://api.zotero.org/p2"], backoff := some 5 },
   { body := [2], link := none, backoff := none }]

/-! ## Helper lemmas -/

/-- Helper: an all-satisfying list is its own `takeWhile`. -/
theorem takeWhile_all_eq {α : Type} (p : α → Bool) :
    ∀ (l : List α), l.all p = true → l.takeWhile p = l := by
  intro l
  induction l with
  | nil => intro _; rfl
  | cons a t ih =>
    intro h
    simp only [List.all_cons, Bool.and_eq_true] at h
    simp [List.takeWhile_cons, h.1, ih h.2]

/-- Helper: a digit differs from any non-digit character. -/
theorem digit_ne_of {c d : Char} (h : c.isDigit = true) (hd : d.isDigit = false) :
    c ≠ d := by
  intro he
  subst he
  rw [h] at hd
  cases hd

/-- Helper: a decimal digit is not `parseInt` whitespace. -/
theorem digit_not_ws {c : Char} (h : c.isDigit = true) : isJsWhitespace c = false := by
  have h1 : c ≠ ' ' := digit_ne_of h (by decide)
  have h2 : c ≠ '\t' := digit_ne_of h (by decide)
  have h3 : c ≠ '\n' := digit_ne_of h (by decide)
  have h4 : c ≠ '\r' := digit_ne_of h (by decide)
  have h5 : c ≠ '\x0b' := digit_ne_of h (by decide)
  have h6 : c ≠ '\x0c' := digit_ne_of h (by decide)
  simp [isJsWhitespace, h1, h2, h3, h4, h5, h6]

/-- Helper: an all-digit character list never triggers the hex prefix. -/
theorem hexGuard_digits {cs : List Char} (h : cs.all Char.isDigit = true) :
    hexGuard cs = false := by
  cases cs with
  | nil => rfl
  | cons c0 t =>
    cases t with
    | nil => rfl
    | cons c1 t2 =>
      simp only [List.all_cons, Bool.and_eq_true] at h
      have hx : c1 ≠ 'x' := digit_ne_of h.2.1 (by decide)
      have hX : c1 ≠ 'X' := digit_ne_of h.2.1 (by decide)
      simp [hexGuard, hx, hX]

/-- Helper: `parseInt`'s unsigned core accepts a nonempty all-digit list. -/
theorem parseIntCore_digits {cs : List Char} (hne : cs ≠ [])
    (h : cs.all Char.isDigit = true) : jsParseIntCore cs = some (decVal cs) := by
  unfold jsParseIntCore
  rw [hexGuard_digits h]
  simp [takeWhile_all_eq _ cs h, hne]

/-- Helper: every spec-side base-10 numeral is accepted by `parseInt`
(character-list level). -/
theorem jsParseIntL_numeral {cs : List Char} (h : specBase10NumeralL cs = true) :
    ∃ n : Int, jsParseIntL cs = some n := by
  cases cs with
  | nil => simp [specBase10NumeralL] at h
  | cons c t =>
    simp only [specBase10NumeralL] at h
    unfold jsParseIntL
    by_cases hsign : c = '-' ∨ c = '+'
    · rw [if_pos hsign] at h
      simp only [Bool.and_eq_true, Bool.not_eq_true'] at h
      obtain ⟨ht, hall⟩ := h
      have htne : t ≠ [] := by
        intro he; subst he; simp at ht
      have hws : isJsWhitespace c = false := by
        rcases hsign with h' | h' <;> subst h' <;> rfl
      rw [List.dropWhile_cons, hws]
      simp only [Bool.false_eq_true, if_false]
      rcases hsign with h' | h' <;> subst h'
      · simp [parseIntCore_digits htne hall]
      · simp [parseIntCore_digits htne hall]
    · rw [if_neg hsign] at h
      have hc : c.isDigit = true := by
        simp only [List.all_cons, Bool.and_eq_true] at h
        exact h.1
      have hws : isJsWhitespace c = false := digit_not_ws hc
      have hm : c ≠ '-' := digit_ne_of hc (by decide)
      have hp : c ≠ '+' := digit_ne_of hc (by decide)
      rw [List.dropWhile_cons, hws]
      simp only [Bool.false_eq_true, if_false]
      rw [if_neg hm, if_neg hp]
      simp [parseIntCore_digits (by simp : (c :: t) ≠ []) h]

/-- Helper: every spec-side base-10 numeral is accepted by `parseInt`. -/
theorem jsParseInt_numeral {s : String} (h : specBase10Numeral s = true) :
    ∃ n : Int, jsParseInt s = some n :=
  jsParseIntL_numeral h

/-! ## Claim theorems -/

/-- C1, counterexample: with `--config` given explicitly, the command section
empty, the environment defining `ZOTERO_CLI_OUT=E` and the global config
section defining `out = "G"`, resolution of the plain `--out` option returns
the global-config value `G` (src lines 108-112 consult the global section
before the environment), not the environment value `E` the claimed order
explicit > command-config > environment > global-config requires. -/
theorem c1_counterexample :
    resolveOption c1ctx true outOpt none = .ok (some (.rstr "G"))
    ∧ c1ctx.env "ZOTERO_CLI_OUT" = some "E"
    ∧ c1ctx.cmdSec "out" = none
    ∧ (Except.ok (some (Raw.rstr "G")) : Except String (Option Raw)) ≠
        .ok (some (.rstr "E")) := by
  refine ⟨by decide, rfl, rfl, by decide⟩

/-- C1 (amended): per option, an explicit (non-null) command-line value always
wins untouched; otherwise the first defined source wins with no merging, but
the order depends on whether `--config` was passed: with `--config` it is
command-config, then global-config, then environment; without `--config` it is
environment, then command-config, then global-config (src lines 100-125). -/
theorem c1_precedence :
    (∀ (cg : Bool) (cmd glob : Option Raw) (e1 e2 : Option String),
      lookupRaw cg cmd glob e1 e2 =
        if cg then firstDefined [cmd, glob, (envOr e1 e2).map Raw.rstr]
        else firstDefined [(envOr e1 e2).map Raw.rstr, cmd, glob])
    ∧ (∀ (ctx : Ctx) (cg : Bool) (opt : OptionDesc) (v : Raw),
        resolveOption ctx cg opt (some v) = .ok (some v)) := by
  constructor
  · intro cg cmd glob e1 e2
    cases cg <;> cases cmd <;> cases glob <;>
      cases h : (envOr e1 e2).map Raw.rstr <;>
        simp [lookupRaw, orElseJs, firstDefined, h]
  · intro ctx cg opt v
    unfold resolveOption
    split <;> rfl

/-- C4: given that the argparse required check and the option loop succeed and
an API key is resolved, `Zotero.run` fails with the scope-conflict error of
src lines 170-171 — before any command logic, which runs only at line 179 —
exactly when `user_id` and `group_id` are both unset or both set after
resolution; with exactly one of the two set no such error is raised. -/
theorem c4_scope (ctx : Ctx) (opts : List OptionDesc) (args : Args) (a : Args)
    (h1 : requiredCheck opts args = none)
    (h2 : resolveAll (preprocScope ctx args) (truthyO (args "config")) opts args = .ok a)
    (h3 : truthyO (a "api_key") = true) :
    (((a "user_id").isNone = true ∧ (a "group_id").isNone = true) ∨
      ((a "user_id").isNone = false ∧ (a "group_id").isNone = false)) ↔
      runResolve ctx opts args = .error .scopeConflict := by
  cases hu : (a "user_id").isNone <;> cases hg : (a "group_id").isNone <;>
    simp [runResolve, h1, h2, h3, hu, hg]

/-- Witness for C4: with an explicit API key and neither `--user-id` nor
`--group-id` in any source, resolution fails with the scope conflict. -/
theorem c4_scope_witness :
    runResolve ctx0 [] c4args = .error .scopeConflict := by
  exact (c4_scope ctx0 [] c4args c4args rfl rfl rfl).mp (Or.inl ⟨rfl, rfl⟩)

/-- Helper: the argparse required check reports the first required option
missing from the command line. -/
theorem requiredCheck_first (args : Args) (o : OptionDesc) :
    ∀ (pre post : List OptionDesc), o.required = true → (args o.dest).isNone = true →
    (∀ p ∈ pre, p.required = true → (args p.dest).isNone = false) →
    requiredCheck (pre ++ o :: post) args = some o.dest := by
  intro pre
  induction pre with
  | nil =>
    intro post hr ha _
    simp [requiredCheck, hr, ha]
  | cons p rest ih =>
    intro post hr ha hfirst
    have hp : p.required = true → (args p.dest).isNone = false := hfirst p (by simp)
    cases hpr : p.required with
    | false =>
      simp only [List.cons_append, requiredCheck, hpr, Bool.false_and,
        Bool.false_eq_true, if_false]
      exact ih post hr ha (fun q hq => hfirst q (by simp [hq]))
    | true =>
      simp only [List.cons_append, requiredCheck, hpr, Bool.true_and, hp hpr,
        Bool.false_eq_true, if_false]
      exact ih post hr ha (fun q hq => hfirst q (by simp [hq]))

/-- Helper: the layered lookup over four empty sources yields nothing. -/
theorem lookupRaw_none (cg : Bool) : lookupRaw cg none none none none = none := by
  cases cg <;> rfl

/-- Helper: the scope preprocessing never touches the command section. -/
theorem preprocScope_cmdSec (ctx : Ctx) (args : Args) :
    (preprocScope ctx args).cmdSec = ctx.cmdSec := by
  unfold preprocScope
  split <;> rfl

/-- Helper: the scope preprocessing never touches the environment. -/
theorem preprocScope_env (ctx : Ctx) (args : Args) :
    (preprocScope ctx args).env = ctx.env := by
  unfold preprocScope
  split <;> rfl

/-- Helper: the scope preprocessing only rewrites the `user-id` and `group-id`
keys of the global section; `api-key` is untouched. -/
theorem preprocScope_globSec_apiKey (ctx : Ctx) (args : Args) :
    (preprocScope ctx args).globSec "api-key" = ctx.globSec "api-key" := by
  unfold preprocScope
  split <;> simp

/-- Helper: when `api_key` is absent from the command line, both config
sections and both environment variables, the option loop leaves it unset. -/
theorem resolveAll_apiKey :
    ∀ (opts : List OptionDesc) (ctx : Ctx) (cg : Bool) (args : Args),
    ctx.cmdSec "api-key" = none → ctx.globSec "api-key" = none →
    ctx.env "ZOTERO_CLI_API_KEY" = none → ctx.env "ZOTERO_API_KEY" = none →
    args "api_key" = none →
    ∀ a, resolveAll ctx cg opts args = .ok a → a "api_key" = none := by
  intro opts
  induction opts with
  | nil =>
    intro ctx cg args _ _ _ _ hnone a hok
    cases hok
    exact hnone
  | cons o rest ih =>
    intro ctx cg args hc hg he1 he2 hnone a hok
    by_cases hd : o.dest = "api_key"
    · have hro : resolveOption ctx cg o (args o.dest) = .ok none := by
        simp only [resolveOption]
        rw [hd, hnone]
        rw [if_neg (by decide : ¬("api_key" = "help" ∨ "api_key" = "config"))]
        rw [show extName "api_key" = "api-key" from rfl,
          show envNameCli "api_key" = "ZOTERO_CLI_API_KEY" from rfl,
          show envNameApi "api_key" = "ZOTERO_API_KEY" from rfl,
          hc, hg, he1, he2, lookupRaw_none]
      simp only [resolveAll] at hok
      rw [hro] at hok
      exact ih ctx cg args hc hg he1 he2 hnone a hok
    · simp only [resolveAll] at hok
      cases hrop : resolveOption ctx cg o (args o.dest) with
      | error e => rw [hrop] at hok; cases hok
      | ok w =>
        rw [hrop] at hok
        cases w with
        | none => exact ih ctx cg args hc hg he1 he2 hnone a hok
        | some v =>
          have hset : (setArg args o.dest v) "api_key" = none := by
            simp only [setArg]
            rw [if_neg (fun hh => hd hh.symm)]
            exact hnone
          exact ih ctx cg (setArg args o.dest v) hc hg he1 he2 hset a hok

/-- C5: (a) a required option that is absent from the command line and from
both config sections and both environment variables — with every earlier
required option supplied — makes resolution fail with the argparse
missing-required error naming exactly that option, before any command logic;
(b) when `api-key` is absent from all four sources, `Zotero.run` never reaches
a successful resolution (the line 167 check is fatal regardless of command). -/
theorem c5_required :
    (∀ (ctx : Ctx) (pre post : List OptionDesc) (o : OptionDesc) (args : Args),
      o.required = true → (args o.dest).isNone = true →
      ctx.cmdSec (extName o.dest) = none → ctx.globSec (extName o.dest) = none →
      ctx.env (envNameCli o.dest) = none → ctx.env (envNameApi o.dest) = none →
      (∀ p ∈ pre, p.required = true → (args p.dest).isNone = false) →
      runResolve ctx (pre ++ o :: post) args = .error (.missingRequired o.dest))
    ∧ (∀ (ctx : Ctx) (opts : List OptionDesc) (args : Args),
      args "api_key" = none →
      ctx.cmdSec "api-key" = none → ctx.globSec "api-key" = none →
      ctx.env "ZOTERO_CLI_API_KEY" = none → ctx.env "ZOTERO_API_KEY" = none →
      ∀ a, runResolve ctx opts args ≠ .ok a) := by
  constructor
  · intro ctx pre post o args hr ha _ _ _ _ hfirst
    unfold runResolve
    rw [requiredCheck_first args o pre post hr ha hfirst]
  · intro ctx opts args hnone hc hg he1 he2 a
    unfold runResolve
    cases hrc : requiredCheck opts args with
    | some d => simp
    | none =>
      cases hra : resolveAll (preprocScope ctx args) (truthyO (args "config")) opts args with
      | error m => simp
      | ok b =>
        have hb : b "api_key" = none := by
          refine resolveAll_apiKey opts (preprocScope ctx args) _ args ?_ ?_ ?_ ?_ hnone b hra
          · rw [preprocScope_cmdSec]; exact hc
          · rw [preprocScope_globSec_apiKey]; exact hg
          · rw [preprocScope_env]; exact he1
          · rw [preprocScope_env]; exact he2
        simp [hb, truthyO]

/-- Witness for C5: the required `--key` option of the `collection` command,
absent everywhere, is reported as missing; and with no API key in any source
resolution never succeeds. -/
theorem c5_required_witness :
    runResolve ctx0 [reqKeyOpt] args0 = .error (.missingRequired "key")
    ∧ runResolve ctx0 [] args0 ≠ .ok args0 := by
  constructor
  · exact c5_required.1 ctx0 [] [] reqKeyOpt args0 rfl rfl rfl rfl rfl rfl
      (by intro p hp; cases hp)
  · exact c5_required.2 ctx0 [] args0 rfl rfl rfl rfl rfl args0

/-- C9, counterexample: the raw string `toString` is none of the six mapped
literals, yet resolving a flag option from `ZOTERO_CLI_VERBOSE=toString`
raises no error at all — the object lookup of src lines 148-156 finds the
`toString` member inherited from `Object.prototype`, which is defined and so
passes the `typeof _value === 'undefined'` test of line 157 — refuting "any
other string is a TypeCoercionError". -/
theorem c9_counterexample :
    resolveOption c9ctx3 false verboseOpt none = .ok (some (.rproto "toString"))
    ∧ (∀ e : String, resolveOption c9ctx3 false verboseOpt none ≠ .error e) := by
  have h : resolveOption c9ctx3 false verboseOpt none
      = .ok (some (.rproto "toString")) := by decide
  refine ⟨h, ?_⟩
  intro e he
  rw [h] at he
  cases he

/-- C9 (amended): a `storeTrue` (flag) option resolved from a raw string
found in config or environment coerces the exact strings `true`/`yes`/`on`
to boolean true and `false`/`no`/`off` to boolean false (case-sensitive exact
match); a string naming a member inherited from `Object.prototype` (such as
`toString` or `constructor`) is accepted silently with that non-boolean
inherited value; every other string is rejected with the `must be boolean`
parser error (src lines 147-158). -/
theorem c9_flag (ctx : Ctx) (cg : Bool) (opt : OptionDesc) (s : String)
    (hdest : ¬(opt.dest = "help" ∨ opt.dest = "config"))
    (htype : opt.type = none) (hch : opt.choices = none) (hst : opt.storeTrue = true)
    (hlook : lookupRaw cg (ctx.cmdSec (extName opt.dest)) (ctx.globSec (extName opt.dest))
      (ctx.env (envNameCli opt.dest)) (ctx.env (envNameApi opt.dest)) = some (.rstr s)) :
    resolveOption ctx cg opt none =
      (if s = "true" ∨ s = "yes" ∨ s = "on" then .ok (some (.rbool true))
       else if s = "false" ∨ s = "no" ∨ s = "off" then .ok (some (.rbool false))
       else if protoProps.contains s = true then .ok (some (.rproto s))
       else .error ("%\x7boption.dest\x7d must be boolean, not " ++ s)) := by
  simp only [resolveOption, if_neg hdest, hlook]
  simp only [coerce, htype, hch, hst, isStrRaw]
  by_cases h1 : s = "true" <;> by_cases h2 : s = "yes" <;> by_cases h3 : s = "on" <;>
    by_cases h4 : s = "false" <;> by_cases h5 : s = "no" <;> by_cases h6 : s = "off" <;>
      by_cases h7 : protoProps.contains s = true <;>
        simp_all [flagMap, Except.map, protoProps]

/-- Witness for C9's amended theorem: `ZOTERO_CLI_VERBOSE=off` resolves the
`--verbose` flag to false, and `ZOTERO_CLI_VERBOSE=maybe` (not an inherited
property name) is a boolean coercion error. -/
theorem c9_flag_witness :
    resolveOption c9ctx false verboseOpt none = .ok (some (.rbool false))
    ∧ resolveOption c9ctx2 false verboseOpt none =
        .error ("%\x7boption.dest\x7d must be boolean, not maybe") := by
  constructor
  · rw [c9_flag c9ctx false verboseOpt "off" (by decide) rfl rfl rfl (by decide)]
    decide
  · rw [c9_flag c9ctx2 false verboseOpt "maybe" (by decide) rfl rfl rfl (by decide)]
    decide

/-- C10, counterexample: the raw string `12abc` is not a base-10 integer
numeral, yet integer coercion accepts it as `12` (both in the run loop, src
lines 127-129, and in the `arg.integer` validator, lines 25-28), because
`parseInt` only reads the longest numeric prefix — refuting "fails if and
only if the raw value is not parseable as a base-10 integer numeral". -/
theorem c10_counterexample :
    coerce ctx0 intOpt (.rstr "12abc") = .ok (.rint 12)
    ∧ argInteger "12abc" = .ok 12
    ∧ specBase10Numeral "12abc" = false := by
  refine ⟨by decide, by decide, by decide⟩

/-- C10 (amended): for an integer-typed option resolved from a raw string,
coercion succeeds with value `n` exactly when ECMAScript `parseInt` reads `n`
from the string's longest (possibly sign- or `0x`-prefixed) numeric prefix,
and fails with the `must be numeric` parser error exactly when `parseInt`
yields `NaN`; every true base-10 numeral is accepted, but so are strings with
trailing garbage after a numeric prefix. -/
theorem c10_integer (ctx : Ctx) (opt : OptionDesc) (s : String)
    (htype : opt.type = some ArgType.integer) :
    (∀ n : Int, jsParseInt s = some n → coerce ctx opt (.rstr s) = .ok (.rint n))
    ∧ (jsParseInt s = none →
        coerce ctx opt (.rstr s) = .error (opt.dest ++ " must be numeric, not " ++ s))
    ∧ (specBase10Numeral s = true → ∃ n : Int, jsParseInt s = some n) := by
  refine ⟨?_, ?_, jsParseInt_numeral⟩
  · intro n hn
    simp [coerce, htype, jsParseIntRaw, hn]
  · intro hn
    simp [coerce, htype, jsParseIntRaw, hn, jsStr]

/-- Witness for C10: `42` is accepted as the integer 42, `abc` fails with the
`must be numeric` error, and the numeral `-7` is accepted. -/
theorem c10_integer_witness :
    coerce ctx0 intOpt (.rstr "42") = .ok (.rint 42)
    ∧ coerce ctx0 intOpt (.rstr "abc") =
        .error ("user_id must be numeric, not abc")
    ∧ (∃ n : Int, jsParseInt "-7" = some n) := by
  refine ⟨(c10_integer ctx0 intOpt "42" rfl).1 42 (by decide),
    (c10_integer ctx0 intOpt "abc" rfl).2.1 (by decide),
    (c10_integer ctx0 intOpt "-7" rfl).2.2 (by decide)⟩

/-- Helper: `countReqs` distributes over append. -/
theorem countReqs_append (a b : List Ev) :
    countReqs (a ++ b) = countReqs a + countReqs b := by
  induction a with
  | nil => simp [countReqs]
  | cons e t ih =>
    cases e with
    | req u => simp [countReqs, ih]; omega
    | sleepMs m => simp [countReqs, ih]

/-- Helper: one loop iteration contributes exactly one request. -/
theorem countReqs_stepEvents {α : Type} (p : Page α) :
    countReqs (stepEvents p) = 1 := by
  unfold stepEvents backoffEvents
  cases p.backoff <;> simp [countReqs, countReqs_append]

/-- Helper: the requests of a bound sequence of loop iterations. -/
theorem countReqs_bind_step {α : Type} (l : List (Page α)) :
    countReqs (l.bind stepEvents) = l.length := by
  induction l with
  | nil => rfl
  | cons p t ih =>
    simp [List.cons_bind, countReqs_append, countReqs_stepEvents, ih]
    omega

/-- Helper: the `while` loop of `Zotero.all` on a well-formed chain returns
the concatenation of all bodies and the event trace of the iterations, one
step of events per page that carries a `next` link. -/
theorem fetchLoop_chain {α : Type} :
    ∀ (queue : List (Page α)) (chunk : Page α),
    chainOK (chunk :: queue) = true →
    fetchLoop chunk queue =
      some (((chunk :: queue).map Page.body).join,
        ((chunk :: queue).dropLast).bind stepEvents) := by
  intro queue
  induction queue with
  | nil =>
    intro chunk h
    have hn : hasNext chunk = false := by
      simpa [chainOK] using h
    simp [fetchLoop, hn]
  | cons q rest ih =>
    intro chunk h
    have hn : hasNext chunk = true := by
      simp only [chainOK, Bool.and_eq_true] at h
      exact h.1
    have hc : chainOK (q :: rest) = true := by
      simp only [chainOK, Bool.and_eq_true] at h
      exact h.2
    have ihq := ih q hc
    simp [fetchLoop, hn, ihq, stepEvents, List.dropLast]

/-- C2: over a sequence of `N ≥ 1` pages where every page except the last
carries a `next` link and none carries a backoff header, `Zotero.all` (src
lines 208-226) returns the concatenation of all pages' records in page order
and the trace contains exactly `N` HTTP requests. -/
theorem c2_pagination {α : Type} (u : String) (ps : List (Page α))
    (hchain : chainOK ps = true) (hback : ∀ p ∈ ps, p.backoff = none) :
    ∃ tr, zoteroAll u ps = some ((ps.map Page.body).join, tr)
      ∧ countReqs tr = ps.length := by
  cases ps with
  | nil => simp [chainOK] at hchain
  | cons c rest =>
    refine ⟨Ev.req u :: ((c :: rest).dropLast).bind stepEvents, ?_, ?_⟩
    · simp [zoteroAll, fetchLoop_chain rest c hchain]
    · have : countReqs (((c :: rest).dropLast).bind stepEvents)
          = ((c :: rest).dropLast).length := countReqs_bind_step _
      simp [countReqs, this, List.length_dropLast]
    
/-- Witness for C2: two pages with bodies `[1,2]` and `[3]` yield `[1,2,3]`
with exactly two requests. -/
theorem c2_pagination_witness :
    ∃ tr, zoteroAll "https://api.zotero.org/p1" c2ps = some ([1, 2, 3], tr)
      ∧ countReqs tr = 2 := by
  exact c2_pagination "https://api.zotero.org/p1" c2ps (by decide) (by decide)

/-- C3: on a well-formed chain, the trace of `Zotero.all` is the initial
request followed, for each page that carries a `next` link, by that page's
step events — which are `sleep (k*1000)` immediately followed by the request
of the next uri when the page carries a backoff header of `k` seconds (src
line 214), and just the request with no sleep when it does not. -/
theorem c3_backoff {α : Type} (u : String) (ps : List (Page α))
    (hchain : chainOK ps = true) :
    zoteroAll u ps =
      some ((ps.map Page.body).join, Ev.req u :: (ps.dropLast).bind stepEvents)
    ∧ (∀ (p : Page α) (k : Nat), p.backoff = some k →
        stepEvents p = [Ev.sleepMs (k * 1000), Ev.req (nextUri p)])
    ∧ (∀ p : Page α, p.backoff = none → stepEvents p = [Ev.req (nextUri p)]) := by
  refine ⟨?_, ?_, ?_⟩
  · cases ps with
    | nil => simp [chainOK] at hchain
    | cons c rest => simp [zoteroAll, fetchLoop_chain rest c hchain]
  · intro p k hk
    simp [stepEvents, backoffEvents, hk]
  · intro p hp
    simp [stepEvents, backoffEvents, hp]

/-- Witness for C3: a first page with backoff 5 produces the trace request,
sleep 5000 ms, request — the sleep strictly before the second request. -/
theorem c3_backoff_witness :
    zoteroAll "https://api.zotero.org/p1" c3ps =
      some ([1, 2], [Ev.req "https://api.zotero.org/p1",
        Ev.sleepMs 5000, Ev.req "https://api.zotero.org/p2"]) := by
  exact (c3_backoff "https://api.zotero.org/p1" c3ps (by decide)).1

/-- C6: `patch` and `delete` attach the `If-Unmodified-Since-Version`
precondition header exactly when an expected version is supplied (src lines
286 and 303); each call issues exactly its one request, and a server
rejection (such as a version conflict) is returned to the caller unchanged,
with no further request. -/
theorem c6_version (apiKey pre uri data : String) (version : Option Nat)
    (server : Req → Except String String) :
    (∀ v : Nat, version = some v →
      ("If-Unmodified-Since-Version", toString v) ∈ (patchReq apiKey pre uri data version).headers
      ∧ ("If-Unmodified-Since-Version", toString v) ∈ (deleteReq apiKey pre uri version).headers)
    ∧ (version = none → ∀ w : String,
      ("If-Unmodified-Since-Version", w) ∉ (patchReq apiKey pre uri data version).headers
      ∧ ("If-Unmodified-Since-Version", w) ∉ (deleteReq apiKey pre uri version).headers)
    ∧ (patchCall server apiKey pre uri data version).2 = [patchReq apiKey pre uri data version]
    ∧ (deleteCall server apiKey pre uri version).2 = [deleteReq apiKey pre uri version]
    ∧ (∀ e : String, server (patchReq apiKey pre uri data version) = .error e →
        (patchCall server apiKey pre uri data version).1 = .error e)
    ∧ (∀ e : String, server (deleteReq apiKey pre uri version) = .error e →
        (deleteCall server apiKey pre uri version).1 = .error e) := by
  refine ⟨?_, ?_, rfl, rfl, ?_, ?_⟩
  · intro v hv
    subst hv
    constructor <;>
      simp [patchReq, deleteReq, authHeaders, zHeadersBase, versionHdr]
  · intro hv w
    subst hv
    constructor <;>
      simp [patchReq, deleteReq, authHeaders, zHeadersBase, versionHdr]
  · intro e he
    simp [patchCall, he]
  · intro e he
    simp [deleteCall, he]

/-- Witness for C6: with version 42 the precondition header is attached; with
no version it is absent; a conflicting server answer propagates unchanged. -/
theorem c6_version_witness :
    ("If-Unmodified-Since-Version", "42") ∈
      (patchReq "K" "/users/1" "/items/X" "{}" (some 42)).headers
    ∧ (("If-Unmodified-Since-Version", "7") ∉
        (patchReq "K" "/users/1" "/items/X" "{}" none).headers)
    ∧ (patchCall (fun _ => .error "412 Precondition Failed") "K" "/users/1"
        "/items/X" "{}" (some 42)).1 = .error "412 Precondition Failed" := by
  refine ⟨((c6_version "K" "/users/1" "/items/X" "{}" (some 42)
      (fun _ => .error "412 Precondition Failed")).1 42 rfl).1,
    ?_, ?_⟩
  · exact ((c6_version "K" "/users/1" "/items/X" "{}" none
      (fun _ => .error "412 Precondition Failed")).2.1 rfl "7").1
  · exact (c6_version "K" "/users/1" "/items/X" "{}" (some 42)
      (fun _ => .error "412 Precondition Failed")).2.2.2.2.1 "412 Precondition Failed" rfl

/-- Helper: a prefix of a replacement result that contains no character of the
replacement string is already a prefix of the original text. -/
theorem replAll_prefix_transfer (k r : List Char) (hr : r ≠ []) :
    ∀ (n : Nat) (t w : List Char), t.length ≤ n →
    (∀ a ∈ w, a ∉ r) → w.isPrefixOf (replaceAllL k r t) = true →
    w.isPrefixOf t = true := by
  intro n
  induction n with
  | zero =>
    intro t w ht hw hp
    have ht0 : t = [] := by
      cases t with
      | nil => rfl
      | cons a b => simp at ht
    subst ht0
    simpa [replaceAllL] using hp
  | succ n ihn =>
    intro t w ht hw hp
    cases t with
    | nil => simpa [replaceAllL] using hp
    | cons c t2 =>
      by_cases hcond : k ≠ [] ∧ k.isPrefixOf (c :: t2) = true
      · simp only [replaceAllL] at hp
        rw [dif_pos hcond] at hp
        cases w with
        | nil => rfl
        | cons a w2 =>
          cases r with
          | nil => exact absurd rfl hr
          | cons r0 r2 =>
            exfalso
            simp only [List.cons_append, List.isPrefixOf, Bool.and_eq_true,
              beq_iff_eq] at hp
            exact (hw a (by simp)) (by simp [hp.1])
      · simp only [replaceAllL] at hp
        rw [dif_neg hcond] at hp
        cases w with
        | nil => rfl
        | cons a w2 =>
          simp only [List.isPrefixOf, Bool.and_eq_true, beq_iff_eq] at hp
          obtain ⟨hac, hw2⟩ := hp
          have ht2 : t2.length ≤ n := by
            simp only [List.length_cons] at ht
            omega
          have := ihn t2 w2 ht2 (fun x hx => hw x (by simp [hx])) hw2
          simp [List.isPrefixOf, hac, this]

/-- Helper: prepending the replacement string cannot create an occurrence of a
pattern that shares no character with it. -/
theorem containsSub_append_r (k : List Char) (hk : k ≠ []) :
    ∀ (r y : List Char), (∀ a ∈ k, a ∉ r) → containsSub k (r ++ y) = containsSub k y := by
  intro r
  induction r with
  | nil => intro y _; rfl
  | cons c r2 ih =>
    intro y hdisj
    have hk0 : k.isPrefixOf (c :: (r2 ++ y)) = false := by
      cases k with
      | nil => exact absurd rfl hk
      | cons k0 k2 =>
        have hne : k0 ≠ c := by
          intro he
          exact (hdisj k0 (by simp)) (by simp [he])
        simp [List.isPrefixOf, hne]
    simp only [List.cons_append, containsSub, List.append_eq, hk0, Bool.false_or]
    exact ih y (fun a ha hm => hdisj a ha (by simp [hm]))

/-- Helper: after global replacement of a nonempty pattern by a nonempty
replacement sharing no character with it, the result contains no occurrence
of the pattern. -/
theorem containsSub_replaceAll (k r : List Char) (hk : k ≠ []) (hr : r ≠ [])
    (hdisj : ∀ a ∈ k, a ∉ r) :
    ∀ (n : Nat) (t : List Char), t.length ≤ n →
    containsSub k (replaceAllL k r t) = false := by
  intro n
  induction n with
  | zero =>
    intro t ht
    have ht0 : t = [] := by
      cases t with
      | nil => rfl
      | cons a b => simp at ht
    subst ht0
    simp [replaceAllL, containsSub, hk]
  | succ n ihn =>
    intro t ht
    cases t with
    | nil => simp [replaceAllL, containsSub, hk]
    | cons c t2 =>
      by_cases hcond : k ≠ [] ∧ k.isPrefixOf (c :: t2) = true
      · simp only [replaceAllL]
        rw [dif_pos hcond]
        rw [containsSub_append_r k hk _ _ hdisj]
        apply ihn
        have hkp : 0 < k.length := List.length_pos.mpr hk
        simp only [List.length_drop, List.length_cons]
        simp only [List.length_cons] at ht
        omega
      · simp only [replaceAllL]
        rw [dif_neg hcond]
        have hX : containsSub k (replaceAllL k r t2) = false := by
          apply ihn
          simp only [List.length_cons] at ht
          omega
        have hpre : k.isPrefixOf (c :: replaceAllL k r t2) = false := by
          cases hp : k.isPrefixOf (c :: replaceAllL k r t2) with
          | false => rfl
          | true =>
            exfalso
            cases k with
            | nil => exact hk rfl
            | cons k0 k2 =>
              simp only [List.isPrefixOf, Bool.and_eq_true, beq_iff_eq] at hp
              obtain ⟨hk0c, hk2⟩ := hp
              have hk2t : k2.isPrefixOf t2 = true :=
                replAll_prefix_transfer (k0 :: k2) r hr t2.length t2 k2 le_rfl
                  (fun a ha => hdisj a (by simp [ha])) hk2
              exact hcond ⟨hk, by simp [List.isPrefixOf, hk0c, hk2t]⟩
        simp [containsSub, hpre, hX]

/-- C7, counterexample: with `--verbose` set, the `key` command's request
`GET /keys/<api-key>` is logged by `Zotero.get` (src line 243) with the API
key embedded in the uri and no redaction — the key does appear in
user-visible output, refuting "every payload emitted by the program has the
key redacted". -/
theorem c7_counterexample :
    verboseGetLog true
        (getFullUri (fun x => x) none none false ("/keys/" ++ "SECRETKEY123") [])
      = some "GET https://api.zotero.org/keys/SECRETKEY123"
    ∧ containsStr "GET https://api.zotero.org/keys/SECRETKEY123" "SECRETKEY123" = true := by
  exact ⟨by decide, by decide⟩

/-- C7 (amended): only `Zotero.show` redacts — it replaces every match of
`new RegExp(key, 'g')` in its serialized payload by `<API-KEY>` (src line
320).  Because the pattern is built from the key unescaped, the guarantee
only holds for keys free of regex metacharacters (real Zotero API keys are
alphanumeric): such a nonempty key sharing no character with the placeholder
never appears in a `show` payload.  A key containing metacharacters is not
reliably redacted at all, and `Zotero.print` output and the `--verbose`
request log are emitted without any redaction. -/
theorem c7_redaction (key payload : String) (h1 : key.toList ≠ [])
    (h2 : ∀ c ∈ key.toList, c ∉ ("<API-KEY>".toList))
    (h3 : ∀ c ∈ key.toList, c ∉ regexSpecial) :
    containsStr (redact key payload) key = false := by
  show containsSub key.toList
    (replaceAllL key.toList "<API-KEY>".toList payload.toList) = false
  exact containsSub_replaceAll key.toList "<API-KEY>".toList h1 (by decide) h2
    payload.toList.length payload.toList le_rfl

/-- Witness for C7's amended theorem: the alphanumeric, metacharacter-free
key `secret123` never survives redaction in a payload that mentions it. -/
theorem c7_redaction_witness :
    containsStr (redact "secret123" "x secret123 y") "secret123" = false := by
  exact c7_redaction "secret123" "x secret123 y" (by decide) (by decide) (by decide)

/-- C8, counterexample: with `--out` set and a failing command, `Zotero.run`
appends the failure message to the in-memory buffer and calls
`process.exit(1)` (src line 182) *before* the `--out` flush of line 185, so
no output file is written at all — refuting "with `--out` set, the output
file containing the message is still written". -/
theorem c8_counterexample :
    (finishRun (some "out.json") "" (.error "boom")).fileWritten = none
    ∧ (finishRun (some "out.json") "" (.error "boom")).exitCode = 1 := by
  exact ⟨rfl, rfl⟩

/-- C8 (amended): on a failing command the process exits with code 1; without
`--out` the human-readable message goes to standard output via `console.log`
(not the error stream); with `--out` the message is appended to the in-memory
buffer but the process exits before the buffer is flushed, so no output file
is written.  On success the exit code is 0 and with `--out` the accumulated
output is written to the file. -/
theorem c8_outcome (out : Option String) (buf msg : String) :
    ((finishRun out buf (.error msg)).exitCode = 1)
    ∧ (out = none → (finishRun out buf (.error msg)).stdout = [printedErr msg]
        ∧ (finishRun out buf (.error msg)).fileWritten = none)
    ∧ (∀ f, out = some f → (finishRun out buf (.error msg)).fileWritten = none
        ∧ (finishRun out buf (.error msg)).buffer = buf ++ printedErr msg ++ "\n")
    ∧ ((finishRun out buf (.ok ())).exitCode = 0)
    ∧ (∀ f, out = some f → (finishRun out buf (.ok ())).fileWritten = some (f, buf)) := by
  cases out with
  | none =>
    refine ⟨rfl, fun _ => ⟨rfl, rfl⟩, ?_, rfl, ?_⟩
    · intro f hf; cases hf
    · intro f hf; cases hf
  | some g =>
    refine ⟨rfl, ?_, ?_, rfl, ?_⟩
    · intro hf
      cases hf
    · intro f hf
      exact ⟨rfl, rfl⟩
    · intro f hf
      cases hf
      rfl

/-- Witness for C8's amended theorem: concrete failing and succeeding runs
with `--out o`. -/
theorem c8_outcome_witness :
    (finishRun (some "o") "data" (.error "boom")).fileWritten = none
    ∧ (finishRun (some "o") "data" (.error "boom")).buffer
        = "data" ++ printedErr "boom" ++ "\n"
    ∧ (finishRun (some "o") "data" (.ok ())).fileWritten = some ("o", "data") := by
  refine ⟨((c8_outcome (some "o") "data" "boom").2.2.1 "o" rfl).1,
    ((c8_outcome (some "o") "data" "boom").2.2.1 "o" rfl).2,
    (c8_outcome (some "o") "data" "boom").2.2.2.2 "o" rfl⟩
